import Mathlib

/-!
Verification development for `custom_components/cz_energy_spot_prices/spot_rate.py`.

Modelling conventions:
- XML documents are a tree of elements; each element carries its tag (in
  Clark notation, namespace in braces), its text (optional, `none` mirrors a
  Python `None` text) and its children.  `find` with a `.//` path is modelled
  by a search over all proper descendants in document order; `find` with a
  plain tag searches direct children.  Python ElementTree truthiness of an
  element (`if fault:`) is by child count, which the model mirrors.
- Instants are integers counting hours since 1970-01-01T00:00 UTC.  All
  Europe/Prague offsets are whole hours, so hour granularity is exact for the
  arithmetic in the source.  Calendar dates are integers counting days since
  1970-01-01 (conversions from and to year/month/day use the standard civil
  calendar algorithm).
- The Europe/Prague time zone is modelled by the EU daylight-saving rule it
  follows in the tzdata era relevant to the program: offset +1 (CET), +2
  (CEST) between the last Sunday of March, 01:00 UTC, and the last Sunday of
  October, 01:00 UTC.
- Python `Decimal` values are modelled as exact rationals; the decimal string
  parser covers the plain sign/digits/point format the feed uses.
- Exceptions are modelled as an error type with one constructor per Python
  exception class reached by this code; fallible code returns `Except`.
- The network download cannot be modelled; the pipeline after download is
  therefore parameterised by the raw response text, and the XML parser
  (`ET.fromstring`) by an abstract parse function returning `none` exactly
  when parsing raises.
-/

namespace SpotRatePy

mutual
/-- XML element: tag (Clark notation), optional text, children.  The
children sequence is its own inductive (`XmlChildren`, isomorphic to a
list) so that the descendant walk is mutual structural recursion. -/
inductive Xml where
  | elem (tag : String) (text : Option String) (children : XmlChildren)

inductive XmlChildren where
  | nil
  | cons (head : Xml) (tail : XmlChildren)
end

def XmlChildren.toList : XmlChildren → List Xml
  | .nil => []
  | .cons x rest => x :: rest.toList

def XmlChildren.ofList : List Xml → XmlChildren
  | [] => .nil
  | x :: rest => .cons x (XmlChildren.ofList rest)

/-- Element constructor taking the children as a plain list. -/
def Xml.mk (tag : String) (text : Option String) (children : List Xml) : Xml :=
  .elem tag text (XmlChildren.ofList children)

def Xml.tag : Xml → String
  | .elem t _ _ => t

def Xml.text : Xml → Option String
  | .elem _ tx _ => tx

def Xml.children : Xml → List Xml
  | .elem _ _ cs => cs.toList

mutual
/-- All proper descendants, in document order: each child, followed by its
own descendants, siblings in order. -/
def Xml.desc : Xml → List Xml
  | .elem _ _ cs => XmlChildren.descList cs

def XmlChildren.descList : XmlChildren → List Xml
  | .nil => []
  | .cons x rest => x :: (Xml.desc x ++ XmlChildren.descList rest)
end

/-- Model of `root.findall(".//tag")`: all proper descendants with the tag,
in document order. -/
def findall (tag : String) (root : Xml) : List Xml :=
  root.desc.filter (fun e => e.tag = tag)

/-- Model of `root.find(".//tag")`: first proper descendant with the tag. -/
def findDesc (tag : String) (root : Xml) : Option Xml :=
  (findall tag root).head?

/-- Model of `el.find("tag")`: first direct child with the tag. -/
def findChild (tag : String) (el : Xml) : Option Xml :=
  el.children.find? (fun e => e.tag = tag)

/-- SOAP envelope namespace, in Clark notation. -/
def soapNs : String := "\x7bhttp://schemas.xmlsoap.org/soap/envelope/\x7d"

/-- OTE public service namespace, in Clark notation. -/
def pubNs : String := "\x7bhttp://www.ote-cr.cz/schema/service/public\x7d"

/-- Error type, one constructor per Python exception class reached by the
translated code.  `invalidFormat` is the `InvalidFormat` subclass of
`OTEFault`; `oteFault` is a bare `OTEFault`; `updateFailed` is the
framework `UpdateFailed`; `valueError` and `invalidOperation` are the
builtin `ValueError` and `decimal.InvalidOperation`; `keyError` is a dict
lookup failure. -/
inductive SpotError where
  | oteFault (msg : String)
  | invalidFormat (msg : String)
  | updateFailed (msg : String)
  | valueError (msg : String)
  | invalidOperation (msg : String)
  | keyError (key : String)
deriving DecidableEq

/-- Boolean infix-list test used to model the Python `in` substring check. -/
def listInfix (needle hay : List Char) : Bool :=
  match hay with
  | [] => needle.isEmpty
  | _ :: rest => needle.isPrefixOf hay || listInfix needle rest

/-- Model of Python `needle in hay` on strings. -/
def containsSub (hay needle : String) : Bool := listInfix needle.data hay.data

/-- Numeric value of a digit list (most significant first). -/
def digitsToNat (cs : List Char) : Nat :=
  cs.foldl (fun a c => a * 10 + (c.toNat - 48)) 0

/-- Model of Python `int(s)` for an optional sign followed by digits;
`none` when `int` would raise `ValueError`. -/
def parseInt (s : String) : Option Int :=
  match s.data with
  | [] => none
  | '-' :: rest =>
    if rest ≠ [] ∧ rest.all Char.isDigit then some (-(digitsToNat rest : Int)) else none
  | '+' :: rest =>
    if rest ≠ [] ∧ rest.all Char.isDigit then some ((digitsToNat rest : Int)) else none
  | cs =>
    if cs.all Char.isDigit then some ((digitsToNat cs : Int)) else none

/-- Unsigned part of a decimal literal: digits with an optional single
point, at least one digit overall. -/
def parseUnsignedDecimal (cs : List Char) : Option ℚ :=
  let ip := cs.takeWhile (fun c => c ≠ '.')
  match cs.dropWhile (fun c => c ≠ '.') with
  | [] =>
    if ip ≠ [] ∧ ip.all Char.isDigit then some ((digitsToNat ip : ℚ)) else none
  | _ :: fp =>
    if (ip ≠ [] ∨ fp ≠ []) ∧ ip.all Char.isDigit ∧ fp.all Char.isDigit then
      some ((digitsToNat ip : ℚ) + (digitsToNat fp : ℚ) / (10 : ℚ) ^ fp.length)
    else none

/-- Model of Python `Decimal(s)` as an exact rational, for the plain
sign/digits/point format; `none` when `Decimal` would raise
`decimal.InvalidOperation`. -/
def parseDecimal (s : String) : Option ℚ :=
  match s.data with
  | '-' :: rest => (parseUnsignedDecimal rest).map (fun q => -q)
  | '+' :: rest => parseUnsignedDecimal rest
  | cs => parseUnsignedDecimal cs

/-- Leap year predicate of the Gregorian calendar. -/
def isLeapYear (y : Int) : Bool := (y % 4 = 0 ∧ y % 100 ≠ 0) ∨ y % 400 = 0

/-- Days in a month of the Gregorian calendar. -/
def daysInMonth (y : Int) (m : Nat) : Nat :=
  if m = 2 then (if isLeapYear y then 29 else 28)
  else if m = 4 ∨ m = 6 ∨ m = 9 ∨ m = 11 then 30
  else 31

/-- Days since 1970-01-01 of the civil date y-m-d (standard civil calendar
algorithm). -/
def daysFromCivil (y : Int) (m : Nat) (d : Nat) : Int :=
  let y2 : Int := if m ≤ 2 then y - 1 else y
  let era := Int.fdiv y2 400
  let yoe := y2 - era * 400
  let mp : Int := if m ≤ 2 then (m : Int) + 9 else (m : Int) - 3
  let doy := Int.fdiv (153 * mp + 2) 5 + (d : Int) - 1
  let doe := yoe * 365 + Int.fdiv yoe 4 - Int.fdiv yoe 100 + doy
  era * 146097 + doe - 719468

/-- Year of a day count (inverse civil calendar algorithm, year part). -/
def yearOfDay (z0 : Int) : Int :=
  let z := z0 + 719468
  let era := Int.fdiv z 146097
  let doe := z - era * 146097
  let yoe := Int.fdiv (doe - Int.fdiv doe 1460 + Int.fdiv doe 36524 - Int.fdiv doe 146096) 365
  let y := yoe + era * 400
  let doy := doe - (365 * yoe + Int.fdiv yoe 4 - Int.fdiv yoe 100)
  let mp := Int.fdiv (5 * doy + 2) 153
  let m := if mp < 10 then mp + 3 else mp - 9
  if m ≤ 2 then y + 1 else y

/-- Model of Python `date.fromisoformat`: strict `YYYY-MM-DD`, validated,
returned as a day count; `none` when `fromisoformat` would raise
`ValueError`. -/
def fromisoformat (s : String) : Option Int :=
  match s.data with
  | [y1, y2, y3, y4, '-', m1, m2, '-', d1, d2] =>
    if ([y1, y2, y3, y4, m1, m2, d1, d2].all Char.isDigit) then
      let y : Int := (digitsToNat [y1, y2, y3, y4] : Int)
      let m := digitsToNat [m1, m2]
      let d := digitsToNat [d1, d2]
      if 1 ≤ y ∧ 1 ≤ m ∧ m ≤ 12 ∧ 1 ≤ d ∧ d ≤ daysInMonth y m then
        some (daysFromCivil y m d)
      else none
    else none
  | _ => none

/-- Day count of the last Sunday on or before the given day count
(1970-01-01 was a Thursday). -/
def lastSundayOnOrBefore (e : Int) : Int :=
  e - Int.emod (Int.emod (e + 3) 7 + 1) 7

/-- Day count of the last Sunday of March of a year. -/
def lastSunMarch (y : Int) : Int := lastSundayOnOrBefore (daysFromCivil y 3 31)

/-- Day count of the last Sunday of October of a year. -/
def lastSunOct (y : Int) : Int := lastSundayOnOrBefore (daysFromCivil y 10 31)

/-- Europe/Prague UTC offset (hours) in effect at the local midnight that
begins day `d`: CEST after the March transition day and through the October
transition day, CET otherwise (local midnight is never ambiguous or skipped
because the transitions happen at 02:00/03:00 local). -/
def pragueOffsetAtMidnight (d : Int) : Int :=
  let y := yearOfDay d
  if lastSunMarch y < d ∧ d ≤ lastSunOct y then 2 else 1

/-- Model of `datetime.combine(d, time(0), tzinfo=Prague).astimezone(UTC)`:
the UTC instant (hours) of local midnight that begins day `d`. -/
def localMidnightUtc (d : Int) : Int := 24 * d - pragueOffsetAtMidnight d

/-- Model of line 191: `start_of_day.astimezone(utc) + timedelta(hours=h)`. -/
def itemTimestamp (d : Int) (currentHour : Int) : Int :=
  localMidnightUtc d + currentHour

/-- Europe/Prague UTC offset (hours) in effect at a UTC instant: the EU
transitions happen at 01:00 UTC on the last Sundays of March and October. -/
def pragueOffsetAt (t : Int) : Int :=
  let y := yearOfDay (Int.fdiv t 24)
  if 24 * lastSunMarch y + 1 ≤ t ∧ t < 24 * lastSunOct y + 1 then 2 else 1

/-- Model of `instant.astimezone(Prague).date()`: local calendar date of a
UTC instant. -/
def localDate (t : Int) : Int := Int.fdiv (t + pragueOffsetAt t) 24

/-- UTC calendar date of a UTC instant (for comparison with `localDate`). -/
def utcDate (t : Int) : Int := Int.fdiv t 24

/-- Model of `SpotRate._fromstring` (lines 100-106): the XML parser is the
abstract `parse`, returning `none` exactly when `ET.fromstring` raises. -/
def fromstring (parse : String → Option Xml) (text : String) : Except SpotError Xml :=
  match parse text with
  | some root => .ok root
  | none =>
    if containsSub text "Application is not available" then
      .error (.updateFailed "OTE Portal is currently not available!")
    else
      .error (.updateFailed "Failed to parse query response.")

/-- Model of the hour section of the item loop (lines 161-170): the
0-based hour index, defaulting to 0 when the `Hour` child is absent or has
no text (the logged warning), 1-based value minus one otherwise; always 0
when `has_hours` is false. -/
def hourStep (has_hours : Bool) (item : Xml) : Except SpotError Int :=
  if has_hours then
    match findChild (pubNs ++ "Hour") item with
    | none => .ok 0
    | some hour_el =>
      match hour_el.text with
      | none => .ok 0
      | some hourText =>
        match parseInt hourText with
        | some h => .ok (h - 1)
        | none => .error (.valueError ("invalid literal for int with base 10: " ++ hourText))
  else .ok 0

/-- Model of the price section of the item loop (lines 172-186): `.ok none`
when the `Price` child is absent or has no text (the `continue` after the
logged note), otherwise the parsed price converted per the requested unit
(divided by exactly 1000 for kWh, unchanged for MWh, `ValueError` for any
other unit literal). -/
def priceStep (unit : String) (item : Xml) : Except SpotError (Option ℚ) :=
  match findChild (pubNs ++ "Price") item with
  | none => .ok none
  | some price_el =>
    match price_el.text with
    | none => .ok none
    | some priceText =>
      match parseDecimal priceText with
      | none => .error (.invalidOperation priceText)
      | some price0 =>
        if unit = "kWh" then .ok (some (price0 / 1000))
        else if unit ≠ "MWh" then .error (.valueError ("Invalid unit " ++ unit))
        else .ok (some price0)

/-- Model of the per-item body of the loop in `SpotRate._get_rates`
(lines 156-193): `.ok none` when the item is skipped (`continue`),
`.ok (some (dt, price))` when it yields an entry. -/
def get_rates_item (unit : String) (has_hours : Bool) (item : Xml) :
    Except SpotError (Option (Int × ℚ)) :=
  match findChild (pubNs ++ "Date") item with
  | none => .error (.invalidFormat "Item has no \"Date\" child or is empty")
  | some date_el =>
    match date_el.text with
    | none => .error (.invalidFormat "Item has no \"Date\" child or is empty")
    | some dateText =>
      match fromisoformat dateText with
      | none => .error (.valueError ("Invalid isoformat string: " ++ dateText))
      | some current_date =>
        match hourStep has_hours item with
        | .error e => .error e
        | .ok current_hour =>
          match priceStep unit item with
          | .error e => .error e
          | .ok none => .ok none
          | .ok (some current_price) =>
            .ok (some (itemTimestamp current_date current_hour, current_price))

/-- Insertion into the result dict (`result[dt] = current_price`):
last write wins, first insertion fixes the position. -/
def insertKV : List (Int × ℚ) → Int → ℚ → List (Int × ℚ)
  | [], k, v => [(k, v)]
  | (k0, v0) :: rest, k, v =>
    if k0 = k then (k0, v) :: rest else (k0, v0) :: insertKV rest k v

/-- The item loop of `SpotRate._get_rates` (lines 154-195) as a fold. -/
def foldItems (unit : String) (has_hours : Bool) :
    List Xml → List (Int × ℚ) → Except SpotError (List (Int × ℚ))
  | [], acc => .ok acc
  | item :: rest, acc =>
    match get_rates_item unit has_hours item with
    | .error e => .error e
    | .ok none => foldItems unit has_hours rest acc
    | .ok (some (k, v)) => foldItems unit has_hours rest (insertKV acc k v)

/-- Model of `SpotRate._get_rates` after download (lines 143-195): parse the
response text, check `root.find(".//soap:Fault")` with Python element
truthiness (`if fault:` is true only when the element has children), then
extract the items.  `text` is the raw downloaded response. -/
def get_rates (parse : String → Option Xml) (text : String) (unit : String)
    (has_hours : Bool) : Except SpotError (List (Int × ℚ)) :=
  match fromstring parse text with
  | .error e => .error e
  | .ok root =>
    match findDesc (soapNs ++ "Fault") root with
    | some fault =>
      if fault.children.isEmpty then
        foldItems unit has_hours (findall (pubNs ++ "Item") root) []
      else
        match findChild "faultstring" fault with
        | some faultstring => .error (.oteFault (faultstring.text.getD "None"))
        | none => .error (.oteFault text)
    | none => foldItems unit has_hours (findall (pubNs ++ "Item") root) []

/-- Python dict lookup (`currency_rates["EUR"]`), `none` when `KeyError`
would be raised. -/
def lookupRate (key : String) : List (String × ℚ) → Option ℚ
  | [] => none
  | (k, v) :: rest => if k = key then some v else lookupRate key rest

/-- Model of `SpotRate.get_gas_rates` after the window computation
(lines 124-139): extract in EUR with `has_hours = false`; when `in_eur` is
false, build a new mapping with every value multiplied by the EUR entry of
the exchange-rate table. -/
def get_gas_rates (parse : String → Option Xml) (text : String) (in_eur : Bool)
    (unit : String) (currency_rates : List (String × ℚ)) :
    Except SpotError (List (Int × ℚ)) :=
  match get_rates parse text unit false with
  | .error e => .error e
  | .ok rates =>
    if in_eur then .ok rates
    else
      match lookupRate "EUR" currency_rates with
      | none => .error (.keyError "EUR")
      | some eur_rate => .ok (rates.map (fun kv => (kv.1, kv.2 * eur_rate)))

/-- Model of the date window of `SpotRate.get_electricity_rates`
(lines 110-113): local date of the reference instant, one day back and one
day forward (the pair passed to the query builder). -/
def get_electricity_rates_window (start : Int) : Int × Int :=
  let first_day := localDate start
  (first_day - 1, first_day + 1)

/-- Model of the date window of `SpotRate.get_gas_rates` (lines 119-122). -/
def get_gas_rates_window (start : Int) : Int × Int :=
  let first_day := localDate start
  (first_day - 1, first_day + 1)

/-- Number of nominal hour slots of local day `d`: the length in hours of
the local day, derived from the midnight-to-midnight UTC span. -/
def nominalSlots (d : Int) : Int := localMidnightUtc (d + 1) - localMidnightUtc d

/-- UTC timestamps of the slots `1, 2, ...` of local day `d`, in slot order,
as computed per item (slot `h` carries `current_hour = h - 1`). -/
def slotTimestamps (d : Int) : List Int :=
  (List.range (nominalSlots d).toNat).map
    (fun (i : Nat) => itemTimestamp d (((i : Int) + 1) - 1))


/-! Concrete documents and items used in claim theorems and witnesses. -/

/-- Raw response text standing in for the downloaded body in concrete runs. -/
def rawResponse : String := "raw-response"

/-- Response document whose SOAP Fault element has no children. -/
def faultEmptyDoc : Xml :=
  Xml.mk (soapNs ++ "Envelope") none
    [Xml.mk (soapNs ++ "Body") none
      [Xml.mk (soapNs ++ "Fault") none []]]

/-- Response document whose SOAP Fault element carries a faultstring. -/
def faultStringDoc : Xml :=
  Xml.mk (soapNs ++ "Envelope") none
    [Xml.mk (soapNs ++ "Body") none
      [Xml.mk (soapNs ++ "Fault") none
        [Xml.mk "faultcode" (some "SOAP-ENV:Server") [],
         Xml.mk "faultstring" (some "Service busy") []]]]

/-- Item with all four children present: date 2023-03-26, hour 3,
price 100. -/
def witnessItem : Xml :=
  Xml.mk (pubNs ++ "Item") none
    [Xml.mk (pubNs ++ "Date") (some "2023-03-26") [],
     Xml.mk (pubNs ++ "Hour") (some "3") [],
     Xml.mk (pubNs ++ "Price") (some "100") [],
     Xml.mk (pubNs ++ "Volume") (some "4021.9") []]

/-- Item whose Date text is present but not a valid ISO date. -/
def badDateItem : Xml :=
  Xml.mk (pubNs ++ "Item") none
    [Xml.mk (pubNs ++ "Date") (some "2023-13-01") [],
     Xml.mk (pubNs ++ "Price") (some "10") []]

/-- Item with no Hour child (date 2023-03-26, price 10). -/
def noHourItem : Xml :=
  Xml.mk (pubNs ++ "Item") none
    [Xml.mk (pubNs ++ "Date") (some "2023-03-26") [],
     Xml.mk (pubNs ++ "Price") (some "10") []]

/-- Item with no Price child (date 2023-03-26, hour 5). -/
def noPriceItem : Xml :=
  Xml.mk (pubNs ++ "Item") none
    [Xml.mk (pubNs ++ "Date") (some "2023-03-26") [],
     Xml.mk (pubNs ++ "Hour") (some "5") []]

/-- Gas response document with one item priced 10 EUR on 2023-03-26. -/
def gasDoc : Xml :=
  Xml.mk (soapNs ++ "Envelope") none
    [Xml.mk (soapNs ++ "Body") none
      [Xml.mk "GetImPriceGResponse" none
        [Xml.mk "Result" none
          [Xml.mk (pubNs ++ "Item") none
            [Xml.mk (pubNs ++ "Date") (some "2023-03-26") [],
             Xml.mk (pubNs ++ "Price") (some "10") []]]]]]

/-! Helper lemmas. -/

@[simp] theorem toList_ofList (l : List Xml) : (XmlChildren.ofList l).toList = l := by
  induction l with
  | nil => rfl
  | cons x rest ih => simp [XmlChildren.ofList, XmlChildren.toList, ih]

theorem hourStep_no_invalidFormat (has_hours : Bool) (item : Xml) (msg : String) :
    hourStep has_hours item ≠ .error (.invalidFormat msg) := by
  unfold hourStep
  repeat' split
  all_goals simp

theorem priceStep_no_invalidFormat (unit : String) (item : Xml) (msg : String) :
    priceStep unit item ≠ .error (.invalidFormat msg) := by
  unfold priceStep
  repeat' split
  all_goals simp

/-! Claim theorems. -/

/-- C1: evidence on fault detection.  A Fault element with a faultstring
child does make the pipeline fail with an OTEFault carrying exactly the
faultstring text.  But a present childless Fault element, although found by
the document search, still yields a successful (empty) extraction, because
the `if fault:` check tests ElementTree element truthiness (child count)
rather than presence.  So the pipeline does not fail whenever a Fault
element is present: the claim describes the documented intent, and the code
deviates from it on childless Fault elements. -/
theorem c1_fault_truthiness :
    findDesc (soapNs ++ "Fault") faultEmptyDoc
      = some (Xml.mk (soapNs ++ "Fault") none []) ∧
    get_rates (fun _ => some faultEmptyDoc) rawResponse "MWh" true = .ok [] ∧
    get_rates (fun _ => some faultStringDoc) rawResponse "MWh" true
      = .error (.oteFault "Service busy") :=
  ⟨rfl, rfl, rfl⟩

/-- C2: an extracted entry for an item with date `d` and 1-based hour `h`
is keyed at the UTC instant of local (Europe/Prague) midnight of `d` plus
`h - 1` hours when `has_hours` is true, and plus 0 hours when `has_hours`
is false. -/
theorem c2_entry_key (unit : String) (item date_el hour_el : Xml)
    (dateText hourText : String) (d h : Int)
    (hdate : findChild (pubNs ++ "Date") item = some date_el)
    (hdtext : date_el.text = some dateText)
    (hdparse : fromisoformat dateText = some d)
    (hhour : findChild (pubNs ++ "Hour") item = some hour_el)
    (hhtext : hour_el.text = some hourText)
    (hhparse : parseInt hourText = some h) :
    (∀ entry : Int × ℚ, get_rates_item unit true item = .ok (some entry) →
      entry.1 = localMidnightUtc d + (h - 1)) ∧
    (∀ entry : Int × ℚ, get_rates_item unit false item = .ok (some entry) →
      entry.1 = localMidnightUtc d + 0) := by
  have hh : hourStep true item = .ok (h - 1) := by
    simp [hourStep, hhour, hhtext, hhparse]
  have hh0 : hourStep false item = .ok 0 := by simp [hourStep]
  constructor
  · intro entry hrun
    simp only [get_rates_item, hdate, hdtext, hdparse, hh] at hrun
    rcases hp : priceStep unit item with e | o
    · simp [hp] at hrun
    · rcases o with _ | p0
      · simp [hp] at hrun
      · simp only [hp, Except.ok.injEq, Option.some.injEq] at hrun
        subst hrun
        simp [itemTimestamp]
  · intro entry hrun
    simp only [get_rates_item, hdate, hdtext, hdparse, hh0] at hrun
    rcases hp : priceStep unit item with e | o
    · simp [hp] at hrun
    · rcases o with _ | p0
      · simp [hp] at hrun
      · simp only [hp, Except.ok.injEq, Option.some.injEq] at hrun
        subst hrun
        simp [itemTimestamp]

theorem c2_entry_key_witness :
    get_rates_item "MWh" true witnessItem
      = .ok (some (localMidnightUtc 19442 + (3 - 1), 100)) ∧
    (∀ entry : Int × ℚ, get_rates_item "MWh" true witnessItem = .ok (some entry) →
      entry.1 = localMidnightUtc 19442 + (3 - 1)) :=
  ⟨rfl,
   (c2_entry_key "MWh" witnessItem _ _ "2023-03-26" "3" 19442 3 rfl rfl (by decide)
      rfl rfl (by decide)).1⟩

/-- C3: for every local day the slot timestamps taken in slot order are
strictly increasing (hence pairwise distinct); the spring-forward
transition day 2023-03-26 (day count 19442) has exactly 23 nominal hourly
slots and the fall-back transition day 2023-10-29 (day count 19659) has
exactly 25, and the timestamp sequences of those days have exactly those
lengths. -/
theorem c3_dst_days :
    (∀ d : Int, List.Pairwise (· < ·) (slotTimestamps d)) ∧
    nominalSlots 19442 = 23 ∧ nominalSlots 19659 = 25 ∧
    (slotTimestamps 19442).length = 23 ∧ (slotTimestamps 19659).length = 25 ∧
    fromisoformat "2023-03-26" = some 19442 ∧
    fromisoformat "2023-10-29" = some 19659 := by
  refine ⟨?_, by decide, by decide, by decide, by decide, by decide, by decide⟩
  intro d
  rw [slotTimestamps]
  refine List.Pairwise.map _ ?_ (List.pairwise_lt_range _)
  intro a b hab
  simp only [itemTimestamp]
  omega

/-- C4: when the XML parser fails on a response text, the failure is the
service-unavailable error exactly when the text contains the substring
"Application is not available", and the generic malformed-response error
otherwise; the two errors are distinguishable values. -/
theorem c4_parse_failure (parse : String → Option Xml) (text : String)
    (hfail : parse text = none) :
    (containsSub text "Application is not available" = true →
      fromstring parse text
        = .error (.updateFailed "OTE Portal is currently not available!")) ∧
    (containsSub text "Application is not available" = false →
      fromstring parse text
        = .error (.updateFailed "Failed to parse query response.")) ∧
    SpotError.updateFailed "OTE Portal is currently not available!" ≠
      SpotError.updateFailed "Failed to parse query response." := by
  refine ⟨fun h => ?_, fun h => ?_, by decide⟩ <;> simp [fromstring, hfail, h]

theorem c4_parse_failure_witness :
    fromstring (fun _ => none) "x Application is not available x"
      = .error (.updateFailed "OTE Portal is currently not available!") ∧
    fromstring (fun _ => none) "hello"
      = .error (.updateFailed "Failed to parse query response.") :=
  ⟨(c4_parse_failure (fun _ => none) "x Application is not available x" rfl).1
      (by decide),
   (c4_parse_failure (fun _ => none) "hello" rfl).2.1 (by decide)⟩

/-- C5: for an item with a parsed price `p`, the stored value is exactly
`p / 1000` when the requested unit is kWh (so multiplying by 1000 recovers
`p` exactly), exactly `p` when the unit is MWh, and any other unit literal
fails fast with a ValueError; in the gas pipeline the currency conversion
multiplies the already-unit-converted values, so the division by 1000 comes
before the currency conversion. -/
theorem c5_unit_conversion (item date_el price_el : Xml)
    (dateText priceText : String) (d : Int) (p : ℚ)
    (hdate : findChild (pubNs ++ "Date") item = some date_el)
    (hdtext : date_el.text = some dateText)
    (hdparse : fromisoformat dateText = some d)
    (hprice : findChild (pubNs ++ "Price") item = some price_el)
    (hptext : price_el.text = some priceText)
    (hpparse : parseDecimal priceText = some p) :
    get_rates_item "kWh" false item = .ok (some (itemTimestamp d 0, p / 1000)) ∧
    (p / 1000) * 1000 = p ∧
    get_rates_item "MWh" false item = .ok (some (itemTimestamp d 0, p)) ∧
    (∀ unit : String, unit ≠ "kWh" → unit ≠ "MWh" →
      get_rates_item unit false item
        = .error (.valueError ("Invalid unit " ++ unit))) ∧
    (∀ (parse : String → Option Xml) (text : String) (r : ℚ) (rates : List (Int × ℚ)),
      get_rates parse text "kWh" false = .ok rates →
      get_gas_rates parse text false "kWh" [("EUR", r)]
        = .ok (rates.map (fun kv => (kv.1, kv.2 * r)))) := by
  refine ⟨?_, div_mul_cancel₀ p (by norm_num), ?_, ?_, ?_⟩
  · simp [get_rates_item, hdate, hdtext, hdparse, hourStep, priceStep, hprice, hptext,
      hpparse]
  · simp [get_rates_item, hdate, hdtext, hdparse, hourStep, priceStep, hprice, hptext,
      hpparse]
  · intro unit h1 h2
    simp [get_rates_item, hdate, hdtext, hdparse, hourStep, priceStep, hprice, hptext,
      hpparse, h1, h2]
  · intro parse text r rates hr
    simp [get_gas_rates, hr, lookupRate]

theorem c5_unit_conversion_witness :
    get_rates_item "kWh" false noHourItem
      = .ok (some (itemTimestamp 19442 0, (10 : ℚ) / 1000)) ∧
    ((10 : ℚ) / 1000) * 1000 = 10 := by
  have h := c5_unit_conversion noHourItem _ _ "2023-03-26" "10" 19442 10
    rfl rfl (by decide) rfl rfl (by decide)
  exact ⟨h.1, h.2.1⟩

/-- C6: with `in_eur` false, the gas pipeline returns a new mapping with
the same keys in which every value is the extracted EUR value multiplied by
the EUR entry of the exchange-rate table; with `in_eur` true it returns the
extracted series unchanged. -/
theorem c6_currency_conversion (parse : String → Option Xml) (text unit : String)
    (table : List (String × ℚ)) (r : ℚ) (rates : List (Int × ℚ))
    (hrates : get_rates parse text unit false = .ok rates)
    (htable : lookupRate "EUR" table = some r) :
    get_gas_rates parse text false unit table
      = .ok (rates.map (fun kv => (kv.1, kv.2 * r))) ∧
    (rates.map (fun kv => (kv.1, kv.2 * r))).map Prod.fst = rates.map Prod.fst ∧
    get_gas_rates parse text true unit table = .ok rates := by
  refine ⟨?_, by simp, ?_⟩ <;> simp [get_gas_rates, hrates, htable]

theorem c6_currency_conversion_witness :
    get_gas_rates (fun _ => some gasDoc) rawResponse false "MWh" [("EUR", 49 / 2)]
      = .ok ([((466607 : Int), (10 : ℚ))].map (fun kv => (kv.1, kv.2 * (49 / 2)))) ∧
    (10 : ℚ) * (49 / 2) = 245 :=
  ⟨(c6_currency_conversion (fun _ => some gasDoc) rawResponse "MWh" [("EUR", 49 / 2)]
      (49 / 2) [(466607, 10)] rfl rfl).1,
   by norm_num⟩

/-- C7: an item whose Price child is absent or has no text is skipped: it
produces no entry and extraction of the remaining items continues, so the
fold over any surrounding items gives the same result as if the item were
not there. -/
theorem c7_missing_price_skip (unit : String) (has_hours : Bool) (item date_el : Xml)
    (dateText : String) (d : Int)
    (hdate : findChild (pubNs ++ "Date") item = some date_el)
    (hdtext : date_el.text = some dateText)
    (hdparse : fromisoformat dateText = some d)
    (hhour : has_hours = true →
      findChild (pubNs ++ "Hour") item = none ∨
      (∃ hour_el : Xml, findChild (pubNs ++ "Hour") item = some hour_el ∧
        hour_el.text = none) ∨
      (∃ (hour_el : Xml) (hourText : String) (h : Int),
        findChild (pubNs ++ "Hour") item = some hour_el ∧
        hour_el.text = some hourText ∧ parseInt hourText = some h))
    (hprice : findChild (pubNs ++ "Price") item = none ∨
      ∃ price_el : Xml, findChild (pubNs ++ "Price") item = some price_el ∧
        price_el.text = none) :
    get_rates_item unit has_hours item = .ok none ∧
    (∀ (pre post : List Xml) (acc : List (Int × ℚ)),
      foldItems unit has_hours (pre ++ item :: post) acc
        = foldItems unit has_hours (pre ++ post) acc) := by
  have hp : priceStep unit item = .ok none := by
    rcases hprice with hp | ⟨price_el, hp, hpt⟩
    · simp [priceStep, hp]
    · simp [priceStep, hp, hpt]
  have hskip : get_rates_item unit has_hours item = .ok none := by
    cases has_hours with
    | false => simp [get_rates_item, hdate, hdtext, hdparse, hourStep, hp]
    | true =>
      rcases hhour rfl with hh | ⟨hour_el, hh, hht⟩ | ⟨hour_el, hourText, hv, hh, hht, hhp⟩
      · simp [get_rates_item, hdate, hdtext, hdparse, hourStep, hh, hp]
      · simp [get_rates_item, hdate, hdtext, hdparse, hourStep, hh, hht, hp]
      · simp [get_rates_item, hdate, hdtext, hdparse, hourStep, hh, hht, hhp, hp]
  refine ⟨hskip, ?_⟩
  intro pre post acc
  induction pre generalizing acc with
  | nil => simp [foldItems, hskip]
  | cons x rest ih =>
    simp only [List.cons_append, foldItems]
    cases hx : get_rates_item unit has_hours x with
    | error e => rfl
    | ok o =>
      cases o with
      | none => exact ih acc
      | some kv => exact ih (insertKV acc kv.1 kv.2)

theorem c7_missing_price_skip_witness :
    get_rates_item "MWh" true noPriceItem = .ok none ∧
    foldItems "MWh" true ([witnessItem] ++ noPriceItem :: []) []
      = foldItems "MWh" true ([witnessItem] ++ []) [] := by
  have h := c7_missing_price_skip "MWh" true noPriceItem _ "2023-03-26" 19442
    rfl rfl (by decide)
    (fun _ => .inr (.inr ⟨Xml.mk (pubNs ++ "Hour") (some "5") [], "5", 5, rfl, rfl,
      by decide⟩))
    (.inl rfl)
  exact ⟨h.1, h.2 [witnessItem] [] []⟩

/-- C8: with `has_hours` true, an item whose Hour child is absent or has no
text does not fail: the hour index defaults to 0, so the entry is keyed at
local midnight of the day plus 0 hours, the first hourly slot. -/
theorem c8_missing_hour_default (unit : String) (item date_el price_el : Xml)
    (dateText priceText : String) (d : Int) (p : ℚ)
    (hdate : findChild (pubNs ++ "Date") item = some date_el)
    (hdtext : date_el.text = some dateText)
    (hdparse : fromisoformat dateText = some d)
    (hhour : findChild (pubNs ++ "Hour") item = none ∨
      ∃ hour_el : Xml, findChild (pubNs ++ "Hour") item = some hour_el ∧
        hour_el.text = none)
    (hprice : findChild (pubNs ++ "Price") item = some price_el)
    (hptext : price_el.text = some priceText)
    (hpparse : parseDecimal priceText = some p)
    (hunit : unit = "kWh" ∨ unit = "MWh") :
    get_rates_item unit true item
      = .ok (some (localMidnightUtc d + 0, if unit = "kWh" then p / 1000 else p)) := by
  have hh0 : hourStep true item = .ok 0 := by
    rcases hhour with hh | ⟨hour_el, hh, hht⟩
    · simp [hourStep, hh]
    · simp [hourStep, hh, hht]
  rcases hunit with hu | hu <;> subst hu <;>
    simp [get_rates_item, hdate, hdtext, hdparse, hh0, priceStep, hprice, hptext,
      hpparse, itemTimestamp]

theorem c8_missing_hour_default_witness :
    get_rates_item "MWh" true noHourItem
      = .ok (some (localMidnightUtc 19442 + 0, (10 : ℚ))) := by
  simpa using c8_missing_hour_default "MWh" noHourItem _ _ "2023-03-26" "10" 19442 10
    rfl rfl (by decide) (.inl rfl) rfl rfl (by decide) (.inr rfl)

/-- C9: both rate entry points query the 3-day window anchored on the local
(Europe/Prague) calendar date of the reference instant: that date minus one
day through that date plus one day, inclusive, hence exactly three calendar
days; the instant is converted to local time before its date is taken
(instant 468935 = 2023-06-30T23:00Z has UTC date 19538 = 2023-06-30 but
local date 19539 = 2023-07-01, and the window is anchored on the local
date). -/
theorem c9_date_window (t : Int) :
    get_electricity_rates_window t = (localDate t - 1, localDate t + 1) ∧
    get_gas_rates_window t = get_electricity_rates_window t ∧
    (∀ d : Int,
      ((get_electricity_rates_window t).1 ≤ d ∧ d ≤ (get_electricity_rates_window t).2) ↔
        (d = localDate t - 1 ∨ d = localDate t ∨ d = localDate t + 1)) ∧
    localDate 468935 ≠ utcDate 468935 ∧
    get_electricity_rates_window 468935 = (19538, 19540) := by
  refine ⟨rfl, rfl, ?_, by decide, by decide⟩
  intro d
  simp only [get_electricity_rates_window]
  omega

/-- C10: an item whose Date child is present with text that is not a valid
ISO calendar date fails with the plain ValueError from date parsing, which
is a different error kind from InvalidFormat and from OTEFault; the
InvalidFormat error arises only when the Date child is missing or has no
text. -/
theorem c10_date_error_kinds (unit : String) (has_hours : Bool) (item : Xml) :
    (∀ (date_el : Xml) (dateText : String),
      findChild (pubNs ++ "Date") item = some date_el →
      date_el.text = some dateText →
      fromisoformat dateText = none →
      get_rates_item unit has_hours item
        = .error (.valueError ("Invalid isoformat string: " ++ dateText))) ∧
    (∀ msg : String, get_rates_item unit has_hours item = .error (.invalidFormat msg) →
      findChild (pubNs ++ "Date") item = none ∨
      ∃ date_el : Xml, findChild (pubNs ++ "Date") item = some date_el ∧
        date_el.text = none) ∧
    (∀ m1 m2 : String, SpotError.valueError m1 ≠ SpotError.invalidFormat m2 ∧
      SpotError.valueError m1 ≠ SpotError.oteFault m2) := by
  refine ⟨?_, ?_, fun m1 m2 => ⟨by simp, by simp⟩⟩
  · intro date_el dateText h1 h2 h3
    simp [get_rates_item, h1, h2, h3]
  · intro msg hrun
    rcases hfd : findChild (pubNs ++ "Date") item with _ | date_el
    · exact .inl rfl
    · rcases hdt : date_el.text with _ | dateText
      · exact .inr ⟨date_el, rfl, hdt⟩
      · exfalso
        simp only [get_rates_item, hfd, hdt] at hrun
        rcases hfi : fromisoformat dateText with _ | d
        · simp [hfi] at hrun
        · simp only [hfi] at hrun
          rcases hh : hourStep has_hours item with e | curh
          · simp only [hh, Except.error.injEq] at hrun
            exact hourStep_no_invalidFormat has_hours item msg (by rw [hh, hrun])
          · simp only [hh] at hrun
            rcases hp : priceStep unit item with e | o
            · simp only [hp, Except.error.injEq] at hrun
              exact priceStep_no_invalidFormat unit item msg (by rw [hp, hrun])
            · rcases o with _ | p0 <;> simp [hp] at hrun

theorem c10_date_error_kinds_witness :
    get_rates_item "MWh" true badDateItem
      = .error (.valueError ("Invalid isoformat string: " ++ "2023-13-01")) :=
  (c10_date_error_kinds "MWh" true badDateItem).1 _ "2023-13-01" rfl rfl (by decide)

end SpotRatePy
